import Mathlib

/-!
Verification development for the configuration-language subsystem of the
rem-bot repository (`src/utils/configParser.ts`).

The TypeScript source is shallowly embedded here:
* JavaScript strings are `List Char` (abbreviated `Str`);
* JavaScript numbers are modelled by `JNum` (exact rationals plus the two
  infinities; a failed `Number()` conversion, i.e. `NaN`, is `Option.none`);
* the untyped structural values built by the parser are the inductive `JVal`
  (arrays carry the extra string-keyed properties JavaScript lets one attach
  to an array object);
* code that can throw returns `Except String`;
* in-place mutation of the (unaliased, tree-shaped) intermediate objects is
  rendered as functional update; for the mutation/aliasing claim about
  `deepMerge` a second, heap-explicit rendering (`deepMergeH`) with an
  address-indexed store is used.
The embedding covers own properties of objects; JavaScript prototype-chain
lookups (e.g. a config key named `toString`) are outside the model.
-/

abbrev Str := List Char

/-- The whitespace class trimmed by JavaScript `String.prototype.trim` and
`Number()` (restricted to the characters that can occur here). -/
def jsWhitespace (c : Char) : Bool :=
  (c = ' ') || (c = '\t') || (c = '\n') || (c = '\r') || (c = '\x0b') || (c = '\x0c')

/-- JavaScript `String.prototype.trim`. -/
def jsTrim (s : Str) : Str :=
  ((s.dropWhile jsWhitespace).reverse.dropWhile jsWhitespace).reverse

/-- JavaScript `String.prototype.toLowerCase` (ASCII fragment). -/
def toLowerStr (s : Str) : Str := s.map Char.toLower

/-- JavaScript `String.prototype.split` with a one-character separator:
`"".split(c) = [""]`, separators at the ends produce empty segments. -/
def splitOnChar (sep : Char) : Str → List Str
  | [] => [[]]
  | c :: rest =>
    let r := splitOnChar sep rest
    if c = sep then [] :: r
    else
      match r with
      | h :: t => (c :: h) :: t
      | [] => [[c]]

/-- The single-quote character (written by code to keep apostrophes out of
the source text). -/
def squote : Char := Char.ofNat 39

/-- JavaScript numbers as produced by `Number()` on the strings this parser
sees: an exact rational, or one of the infinities.  `NaN` is represented by
`Option.none` at the conversion function. -/
inductive JNum where
  | fin (q : ℚ)
  | inf
  | ninf
deriving DecidableEq, Repr

/-- Value of a digit string in a given base, assuming all characters valid. -/
def digitsVal (base : Nat) (ds : Str) : Nat :=
  ds.foldl (fun n c =>
    n * base +
      (if '0' ≤ c ∧ c ≤ '9' then c.toNat - 48
       else if 'a' ≤ c ∧ c ≤ 'f' then c.toNat - 87
       else c.toNat - 55)) 0

def isHexDigit (c : Char) : Bool :=
  c.isDigit || ('a' ≤ c ∧ c ≤ 'f') || ('A' ≤ c ∧ c ≤ 'F')

def isRadixDigit (base : Nat) (c : Char) : Bool :=
  if base = 16 then isHexDigit c
  else if base = 8 then '0' ≤ c ∧ c ≤ '7'
  else c = '0' ∨ c = '1'

/-- `Number("0x…")`, `Number("0o…")`, `Number("0b…")` after the prefix. -/
def radixNum (base : Nat) (ds : Str) : Option JNum :=
  if ds ≠ [] ∧ ds.all (isRadixDigit base) then some (.fin (mkRat (digitsVal base ds) 1))
  else none

/-- The optional exponent tail of a decimal literal, applied to the exact
value `num / den` (rationals are carried as a numerator/denominator pair so
that every literal reduces inside the kernel). -/
def decExpPart (num den : Nat) (r : Str) : Option (Nat × Nat) :=
  match r with
  | [] => some (num, den)
  | e :: rest =>
    if e = 'e' ∨ e = 'E' then
      let signedDigits : Bool × Str :=
        match rest with
        | '+' :: ds => (false, ds)
        | '-' :: ds => (true, ds)
        | ds => (false, ds)
      let neg := signedDigits.1
      let ds := signedDigits.2
      if ds ≠ [] ∧ ds.all Char.isDigit then
        some (if neg then (num, den * 10 ^ digitsVal 10 ds)
              else (num * 10 ^ digitsVal 10 ds, den))
      else none
    else none

/-- An unsigned decimal literal per the `Number()` grammar:
`digits`, `digits.digits?`, `.digits`, each with an optional exponent. -/
def decCore (t : Str) : Option (Nat × Nat) :=
  let intPart := t.takeWhile Char.isDigit
  let rest1 := t.dropWhile Char.isDigit
  match rest1 with
  | '.' :: rest2 =>
    let frac := rest2.takeWhile Char.isDigit
    let rest3 := rest2.dropWhile Char.isDigit
    if intPart = [] ∧ frac = [] then none
    else decExpPart (digitsVal 10 (intPart ++ frac)) (10 ^ frac.length) rest3
  | _ =>
    if intPart = [] then none else decExpPart (digitsVal 10 intPart) 1 rest1

/-- A decimal literal with an optional sign. -/
def signedDec (t : Str) : Option JNum :=
  match t with
  | '+' :: r => (decCore r).map (fun p => .fin (mkRat p.1 p.2))
  | '-' :: r => (decCore r).map (fun p => .fin (mkRat (-(p.1 : Int)) p.2))
  | r => (decCore r).map (fun p => .fin (mkRat p.1 p.2))

/-- JavaScript `Number(string)` conversion; `none` is `NaN` (so the source's
`!isNaN(Number(trimmed))` test is `(jsNumber trimmed).isSome`). -/
def jsNumber (s : Str) : Option JNum :=
  let t := jsTrim s
  if t = [] then some (.fin (mkRat 0 1))
  else if t = ("Infinity".data) ∨ t = ("+Infinity".data) then some .inf
  else if t = ("-Infinity".data) then some .ninf
  else
    match t with
    | '0' :: c :: rest =>
      if c = 'x' ∨ c = 'X' then radixNum 16 rest
      else if c = 'o' ∨ c = 'O' then radixNum 8 rest
      else if c = 'b' ∨ c = 'B' then radixNum 2 rest
      else signedDec t
    | _ => signedDec t

/-- Untyped structural values: the dynamic values flowing through
`parseValue`, `setNestedValue` and `deepMerge`.  `arr` carries both the
elements and any extra string-keyed properties assigned onto the array. -/
inductive JVal where
  | bool (b : Bool)
  | num (n : JNum)
  | str (s : Str)
  | arr (elems : List JVal) (props : List (Str × JVal))
  | obj (fields : List (Str × JVal))

/-- First value bound to a key in an association list (JavaScript own-property
read; keys are unique in the lists we build, so first = only). -/
def lookupField {α : Type} : List (Str × α) → Str → Option α
  | [], _ => none
  | (k, v) :: fs, key => if key = k then some v else lookupField fs key

/-- JavaScript property assignment on an object literal: overwrite in place
if the key exists (keeping its position), else append. -/
def setField {α : Type} : List (Str × α) → Str → α → List (Str × α)
  | [], key, v => [(key, v)]
  | (k, w) :: fs, key, v =>
    if k = key then (k, v) :: fs else (k, w) :: setField fs key v

/-- Is this character a double or single quote (the regex class used by
`parseValue`'s quote stripping)? -/
def isQuote (c : Char) : Bool := c = '"' || c = squote

/-- The replace in `trimmed.replace(/^["'](.+)["']$/, "$1")`: strip one layer
of surrounding (not necessarily matching) quotes when the middle is
non-empty; otherwise return the string unchanged. -/
def stripQuotes (t : Str) : Str :=
  match t.head?, t.getLast? with
  | some a, some b =>
    if isQuote a ∧ isQuote b ∧ 3 ≤ t.length then (t.drop 1).dropLast else t
  | _, _ => t

/-- `ConfigParser.parseValue`, with explicit recursion fuel.  The source
recurses once into the segments of a comma-split; each segment is strictly
shorter than the input and contains no comma, so `length + 1` fuel always
suffices and the fuel-exhaustion branch (which returns the rule-4 string
fallback) is never taken. -/
def parseValueF : Nat → Str → JVal
  | 0, value => .str (stripQuotes (jsTrim value))
  | fuel + 1, value =>
    let trimmed := jsTrim value
    if toLowerStr trimmed = ("true".data) then .bool true
    else if toLowerStr trimmed = ("false".data) then .bool false
    else
      match jsNumber trimmed with
      | some n => .num n
      | none =>
        if trimmed.contains ',' then
          .arr ((splitOnChar ',' trimmed).map (fun v => parseValueF fuel (jsTrim v))) []
        else .str (stripQuotes trimmed)

/-- `ConfigParser.parseValue`. -/
def parseValue (value : Str) : JVal := parseValueF (value.length + 1) value

example : parseValue ("true".data) = .bool true := by rfl
example : parseValue ("TRUE".data) = .bool true := by rfl
example : parseValue ("42".data) = .num (.fin (mkRat 42 1)) := by rfl
example : parseValue ("3.14".data) = .num (.fin (mkRat 157 50)) := by rfl
example : parseValue ("1,2,3".data) =
    .arr [.num (.fin (mkRat 1 1)), .num (.fin (mkRat 2 1)), .num (.fin (mkRat 3 1))] [] := by
  rfl
example : parseValue ("a,b".data) = .arr [.str ("a".data), .str ("b".data)] [] := by rfl
example : parseValue ("\"hello\"".data) = .str ("hello".data) := by rfl
example : parseValue ("\"true\"".data) = .str ("true".data) := by rfl

/-- JavaScript truthiness of the values that can occur here (`NaN` cannot be
stored by the parser, and `undefined` is rendered as `Option.none` at the
reading sites). -/
def truthy : JVal → Bool
  | .bool b => b
  | .num (.fin q) => q ≠ 0
  | .num _ => true
  | .str s => s ≠ []
  | .arr _ _ => true
  | .obj _ => true

/-- `v instanceof Object`: true exactly for objects and arrays. -/
def isJSObject : JVal → Bool
  | .arr _ _ => true
  | .obj _ => true
  | _ => false

/-- Does this key denote a canonical array index (`"0"`, `"1"`, …)? -/
def strToIndex (k : Str) : Option Nat :=
  if k ≠ [] ∧ k.all Char.isDigit ∧ (k = ['0'] ∨ k.head? ≠ some '0') then
    some (digitsVal 10 k)
  else none

/-- Decimal rendering of a natural number, as a `Str`. -/
def natToStr (n : Nat) : Str := (Nat.repr n).data

/-- JavaScript property read `cur[k]` (own properties; `none` is
`undefined`).  Indexing a primitive string yields its characters, which is
what the boxed read in `setNestedValue` would see. -/
def jsGetProp (cur : JVal) (k : Str) : Option JVal :=
  match cur with
  | .obj fs => lookupField fs k
  | .arr es ps =>
    match strToIndex k with
    | some i =>
      match es.get? i with
      | some v => some v
      | none => lookupField ps k
    | none => lookupField ps k
  | .str s =>
    match strToIndex k with
    | some i => (s.get? i).map (fun c => .str [c])
    | none => none
  | _ => none

/-- JavaScript property write `cur[k] = v`.  On a primitive this is a
strict-mode `TypeError`, rendered as `none`.  Writing past the end of an
array is stored with the array's extra properties (JavaScript would create a
sparse element; the difference is unobservable to this program, which never
reads `length`). -/
def jsSetProp (cur : JVal) (k : Str) (v : JVal) : Option JVal :=
  match cur with
  | .obj fs => some (.obj (setField fs k v))
  | .arr es ps =>
    match strToIndex k with
    | some i =>
      if i < es.length then some (.arr (es.set i v) ps)
      else some (.arr es (setField ps k v))
    | none => some (.arr es (setField ps k v))
  | _ => none

/-- `ConfigParser.setNestedValue`: walk `path`, materialising an intermediate
container with `current[key] = current[key] || {}` at every step but the
last, then assign the value at the final segment.  The in-place mutation of
the (tree-shaped, unaliased) object is rendered as a functional update; a
strict-mode `TypeError` (property assignment on a primitive) is `.error`. -/
def setNestedValue (cur : JVal) (path : List Str) (v : JVal) : Except String JVal :=
  match path with
  | [] =>
    -- unreachable from `parseContent` (`split('.')` is never empty); JS
    -- would read `path[-1] = undefined` and assign at the key "undefined"
    match jsSetProp cur ("undefined".data) v with
    | some cur2 => .ok cur2
    | none => .error ("TypeError: cannot create property")
  | [k] =>
    match jsSetProp cur k v with
    | some cur2 => .ok cur2
    | none => .error ("TypeError: cannot create property")
  | k :: rest =>
    let nv :=
      match jsGetProp cur k with
      | some x => if truthy x then x else .obj []
      | none => .obj []
    match jsSetProp cur k nv with
    | none => .error ("TypeError: cannot create property")
    | some cur2 =>
      match setNestedValue nv rest v with
      | .ok nv2 =>
        match jsSetProp cur2 k nv2 with
        | some cur3 => .ok cur3
        | none => .error ("TypeError: cannot create property")
      | .error e => .error e

/-- The own enumerable properties of a value, as enumerated by `for…in` and
copied by object spread: fields of an object, index/extra properties of an
array, index characters of a string, nothing for other primitives. -/
def ownProps : JVal → List (Str × JVal)
  | .obj fs => fs
  | .arr es ps => (es.enum.map (fun p => (natToStr p.1, p.2))) ++ ps
  | .str s => s.enum.map (fun p => (natToStr p.1, JVal.str [p.2]))
  | _ => []

/-- `k in t` followed by the read `t[k]`: `.error` is the `TypeError` that
`in` raises on a primitive right operand; `.ok none` means the key is
absent; `.ok (some v)` gives the value that `t[k]` then reads. -/
def jsInOp (t : JVal) (k : Str) : Except String (Option JVal) :=
  match t with
  | .obj fs => .ok (lookupField fs k)
  | .arr _ _ => .ok (jsGetProp t k)
  | _ => .error ("TypeError: cannot use in operator to search in a primitive")

/-- The `for (const key in source)` loop of `deepMerge`, acting on the
accumulated `output` field list; the recursive merge of the next level is
passed in as `dm`, which keeps every definition structurally recursive (and
hence evaluable inside the kernel). -/
def dmFold (dm : JVal → JVal → Except String JVal) (target : JVal) :
    List (Str × JVal) → List (Str × JVal) → Except String (List (Str × JVal))
  | out, [] => .ok out
  | out, (k, sv) :: rest =>
    if isJSObject sv then
      match jsInOp target k with
      | .error e => .error e
      | .ok (some tv) =>
        match dm tv sv with
        | .ok mv => dmFold dm target (setField out k mv) rest
        | .error e => .error e
      | .ok none => dmFold dm target (setField out k sv) rest
    else dmFold dm target (setField out k sv) rest

/-- `ConfigParser.deepMerge`, fuelled.  The fuel only bounds the recursion
depth: each recursive call descends one nesting level of the source, so any
fuel exceeding the source's nesting depth gives exactly the source
behaviour; `parseContent` passes such a fuel.  `output = {...target}` is the
initial field list; the loop body follows the source line by line. -/
def deepMergeF : Nat → JVal → JVal → Except String JVal
  | 0, _, _ => .error ("fuel exhausted")
  | f + 1, target, source =>
    match dmFold (deepMergeF f) target (ownProps target) (ownProps source) with
    | .ok out => .ok (.obj out)
    | .error e => .error e

/-- `z.object({ postToBluesky: z.boolean().default(true) })`. -/
structure CommitsConfig where
  postToBluesky : Bool
deriving DecidableEq, Repr

/-- `z.object({ commits: … })`. -/
structure GithubConfig where
  commits : CommitsConfig
deriving DecidableEq, Repr

/-- `z.object({ enable: z.boolean().default(true) })`. -/
structure StatsConfig where
  enable : Bool
deriving DecidableEq, Repr

/-- The validated configuration type (`RemConfig = z.infer<typeof configSchema>`). -/
structure RemConfig where
  github : GithubConfig
  stats : StatsConfig
deriving DecidableEq, Repr

/-- The `defaultConfig` constant. -/
def defaultConfig : RemConfig := ⟨⟨⟨true⟩⟩, ⟨true⟩⟩

/-- `defaultConfig` as the structural object handed to `deepMerge`. -/
def defaultConfigJ : JVal :=
  .obj
    [(("github".data),
      .obj [(("commits".data), .obj [(("postToBluesky".data), .bool true)])]),
     (("stats".data), .obj [(("enable".data), .bool true)])]

/-- `z.boolean().default(d).parse`: an absent (`undefined`) value takes the
default, a present boolean passes through, anything else is a validation
error — zod's `.default` does not coerce wrong-typed values. -/
def zodBoolDefault (v : Option JVal) (d : Bool) : Except String Bool :=
  match v with
  | none => .ok d
  | some (.bool b) => .ok b
  | some _ => .error ("Expected boolean")

/-- A required `z.object` field: must be present and an object (arrays and
primitives are rejected); unknown keys of the input are stripped by reading
only the declared ones. -/
def zodObjField (v : Option JVal) : Except String (List (Str × JVal)) :=
  match v with
  | some (.obj fs) => .ok fs
  | some _ => .error ("Expected object")
  | none => .error ("Required")

/-- `configSchema.parse` on the merged structural object. -/
def schemaParse (v : JVal) : Except String RemConfig :=
  match v with
  | .obj fs =>
    match zodObjField (lookupField fs ("github".data)) with
    | .error e => .error e
    | .ok gfs =>
      match zodObjField (lookupField gfs ("commits".data)) with
      | .error e => .error e
      | .ok cfs =>
        match zodBoolDefault (lookupField cfs ("postToBluesky".data)) true with
        | .error e => .error e
        | .ok pb =>
          match zodObjField (lookupField fs ("stats".data)) with
          | .error e => .error e
          | .ok sfs =>
            match zodBoolDefault (lookupField sfs ("enable".data)) true with
            | .error e => .error e
            | .ok en => .ok ⟨⟨⟨pb⟩⟩, ⟨en⟩⟩
  | _ => .error ("Expected object")

/-- The lexer state threaded through `parseContent`'s line loop:
`currentSection` and the accumulating `configObj`. -/
structure LexState where
  currentSection : Str
  configObj : JVal

def initState : LexState := ⟨[], .obj []⟩

/-- The section-header test `trimmedLine.match(/^\[(.+)\]$/)`: an opening
bracket, at least one inner character (which may itself contain brackets —
the inner group is greedy), and a closing bracket at the very end. -/
def sectionMatch (t : Str) : Option Str :=
  if t.head? = some '[' ∧ t.getLast? = some ']' ∧ 3 ≤ t.length then
    some ((t.drop 1).dropLast)
  else none

/-- The scan performed by the lazy regex `/^(.+?)=(.+)$/`: find the leftmost
`'='` that has at least one character before it and at least one after it;
the key is everything before that `'='` (and may itself contain `'='` only
if no earlier eligible separator exists), the value everything after. -/
def findSep (acc : Str) : Str → Option (Str × Str)
  | [] => none
  | c :: rest =>
    if c = '=' ∧ acc ≠ [] ∧ rest ≠ [] then some (acc, rest)
    else findSep (acc ++ [c]) rest

/-- The key/value test `trimmedLine.match(/^(.+?)=(.+)$/)`. -/
def kvMatch (t : Str) : Option (Str × Str) := findSep [] t

/-- One iteration of `parseContent`'s `for (const line of lines)` loop:
skip blanks and `#` comments, record section headers, assign key/value
pairs (the key is *not* trimmed again — only the whole line was), and
silently ignore anything else. -/
def processLine (st : LexState) (line : Str) : Except String LexState :=
  let t := jsTrim line
  if t = [] ∨ t.head? = some '#' then .ok st
  else
    match sectionMatch t with
    | some name => .ok { st with currentSection := name }
    | none =>
      match kvMatch t with
      | some kv =>
        let keyPath :=
          if st.currentSection = [] then kv.1 else st.currentSection ++ '.' :: kv.1
        match setNestedValue st.configObj (splitOnChar '.' keyPath) (parseValue kv.2) with
        | .ok obj => .ok { st with configObj := obj }
        | .error e => .error e
      | none => .ok st

/-- The whole line loop of `parseContent`. -/
def processLines (st : LexState) : List Str → Except String LexState
  | [] => .ok st
  | l :: rest =>
    match processLine st l with
    | .ok st2 => processLines st2 rest
    | .error e => .error e

/-- `ConfigParser.parseContent`: lex every line into `configObj`, deep-merge
the defaults with it, validate against the schema.  A zod validation error
is rewrapped as `Invalid configuration: …`; other exceptions (the strict-mode
`TypeError`s of `setNestedValue`, or the `in`-operator `TypeError` of
`deepMerge`) propagate unchanged. -/
def parseContent (content : Str) : Except String RemConfig :=
  match processLines initState (splitOnChar '\n' content) with
  | .error e => .error e
  | .ok st =>
    -- The merge fuel only has to exceed the nesting depth of `configObj`,
    -- which is at most the longest section-qualified key path (both parts
    -- are substrings of the content) plus the depth 2 of parsed values.
    match deepMergeF (2 * content.length + 8) defaultConfigJ st.configObj with
    | .error e => .error e
    | .ok merged =>
      match schemaParse merged with
      | .ok cfg => .ok cfg
      | .error e => .error ("Invalid configuration: " ++ e)

/-- `ConfigParser.parseFile`: its `try { … } catch (error) { throw error }`
is the identity on the outcome of `parseContent`. -/
def parseFile (content : Str) : Except String RemConfig := parseContent content

/-- `createConfig`: the Config Resolver.  The external fetch capability
(`getFileContent`, which either returns the raw text or throws) is passed in
as a function to `Except`; `parser.getConfig()` returns the untouched
`this.config = defaultConfig`, so every failure path yields the default
configuration and no error escapes. -/
def createConfig (fetch : Str → Str → Except String Str) (repository filePath : Str) :
    RemConfig :=
  let parts := splitOnChar '/' repository
  let owner := (parts.get? 0).getD []
  let repo := (parts.get? 1).getD []
  if owner = [] ∨ repo = [] then defaultConfig
  else
    match fetch (owner ++ '/' :: repo) filePath with
    | .error _ => defaultConfig
    | .ok content =>
      match parseFile content with
      | .ok cfg => cfg
      | .error _ => defaultConfig

/-- Is this `Except` an error? -/
def isErrE {α : Type} (e : Except String α) : Bool :=
  match e with
  | .error _ => true
  | .ok _ => false

example : parseContent ("github.commits.postToBluesky=false".data) =
    .ok ⟨⟨⟨false⟩⟩, ⟨true⟩⟩ := by rfl
example : parseContent ("[github.commits]\npostToBluesky=false".data) =
    .ok ⟨⟨⟨false⟩⟩, ⟨true⟩⟩ := by rfl
example : parseContent ("stats.enable = false".data) = .ok ⟨⟨⟨true⟩⟩, ⟨true⟩⟩ := by rfl
example : parseContent ("stats.enable=false".data) = .ok ⟨⟨⟨true⟩⟩, ⟨false⟩⟩ := by rfl
example : isErrE (parseContent ("stats.enable=banana".data)) = true := by rfl
example : parseContent ("".data) = .ok defaultConfig := by rfl
example : parseContent ("# only a comment".data) = .ok defaultConfig := by rfl
example : isErrE (parseContent ("stats.enable.x=1,2".data)) = true := by rfl

/-!
### Heap-explicit rendering of `deepMerge`

The claim that `deepMerge` mutates neither input is about the JavaScript
heap, so here the same function is rendered over an explicit address-indexed
store: objects and arrays live at addresses, `const output = {...target}`
allocates a fresh address, and the loop's `output[key] = …` assignments are
in-place writes to that fresh address only.
-/

abbrev Addr := Nat

/-- A heap value: a primitive, or a reference to a heap object. -/
inductive HVal where
  | bool (b : Bool)
  | num (n : JNum)
  | str (s : Str)
  | ref (a : Addr)
deriving DecidableEq, Repr

/-- A heap object: a plain object or an array (with extra properties). -/
inductive HObj where
  | obj (fields : List (Str × HVal))
  | arr (elems : List HVal) (props : List (Str × HVal))
deriving DecidableEq, Repr

abbrev Heap := List (Addr × HObj)

def lookupH : Heap → Addr → Option HObj
  | [], _ => none
  | (b, o) :: h, a => if a = b then some o else lookupH h a

def maxAddr : Heap → Nat
  | [] => 0
  | (b, _) :: h => max b (maxAddr h)

/-- An address unused by the heap. -/
def freshA (h : Heap) : Addr := maxAddr h + 1

/-- Replace the object stored at `a` (no effect if `a` is unallocated). -/
def writeH : Heap → Addr → HObj → Heap
  | [], _, _ => []
  | (b, o) :: h, a, o2 =>
    if b = a then (b, o2) :: writeH h a o2 else (b, o) :: writeH h a o2

/-- The own enumerable properties of a heap value (`for…in` / spread). -/
def ownPropsH (h : Heap) (v : HVal) : List (Str × HVal) :=
  match v with
  | .ref a =>
    match lookupH h a with
    | some (.obj fs) => fs
    | some (.arr es ps) => (es.enum.map (fun p => (natToStr p.1, p.2))) ++ ps
    | none => []
  | .str s => s.enum.map (fun p => (natToStr p.1, HVal.str [p.2]))
  | _ => []

/-- `k in t` plus the read `t[k]` on the heap; `.error` is the `TypeError`
raised by `in` on a primitive. -/
def jsInOpH (h : Heap) (t : HVal) (k : Str) : Except String (Option HVal) :=
  match t with
  | .ref _ => .ok (lookupField (ownPropsH h t) k)
  | _ => .error ("TypeError: cannot use in operator to search in a primitive")

/-- `output[k] = v`: an in-place field write on the object at `a`. -/
def writeProp (h : Heap) (a : Addr) (k : Str) (v : HVal) : Heap :=
  match lookupH h a with
  | some (.obj fs) => writeH h a (.obj (setField fs k v))
  | some (.arr es ps) => writeH h a (.arr es (setField ps k v))
  | none => h

/-- The `for (const key in source)` loop of the heap-level `deepMerge`,
writing into the freshly allocated `output` object at `aout`; the recursive
merge is passed in as `dm`.  The second component is `false` when an
exception aborted the loop. -/
def mergePropsGo (dm : Heap → HVal → HVal → Heap × Option HVal) (aout : Addr)
    (t : HVal) : Heap → List (Str × HVal) → Heap × Bool
  | h, [] => (h, true)
  | h, (k, sv) :: rest =>
    match sv with
    | .ref _ =>
      match jsInOpH h t k with
      | .error _ => (h, false)
      | .ok (some tv) =>
        let r := dm h tv sv
        match r.2 with
        | some mv => mergePropsGo dm aout t (writeProp r.1 aout k mv) rest
        | none => (r.1, false)
      | .ok none => mergePropsGo dm aout t (writeProp h aout k sv) rest
    | _ => mergePropsGo dm aout t (writeProp h aout k sv) rest

/-- Heap-level `ConfigParser.deepMerge`: allocate `output = {...target}` at
a fresh address, run the loop, return a reference to the output.  A `none`
result is a thrown `TypeError` (or exhausted fuel; as for `deepMergeF`, any
fuel above the source's nesting depth is exact). -/
def deepMergeH : Nat → Heap → HVal → HVal → Heap × Option HVal
  | 0, h, _, _ => (h, none)
  | f + 1, h, t, s =>
    let a := freshA h
    let h1 := (a, HObj.obj (ownPropsH h t)) :: h
    let r := mergePropsGo (deepMergeH f) a t h1 (ownPropsH h s)
    (r.1, if r.2 then some (HVal.ref a) else none)

/-- The default configuration laid out on the heap (address 0 is the shared
`defaultConfig` object), together with two parsed structural objects
(addresses 4–5: `{stats:{enable:false}}`; address 6: `{}`). -/
def mutationHeap : Heap :=
  [(0, .obj [(("github".data), .ref 1), (("stats".data), .ref 2)]),
   (1, .obj [(("commits".data), .ref 3)]),
   (2, .obj [(("enable".data), .bool true)]),
   (3, .obj [(("postToBluesky".data), .bool true)]),
   (4, .obj [(("stats".data), .ref 5)]),
   (5, .obj [(("enable".data), .bool false)]),
   (6, .obj [])]

/-!
## Theorems
-/

/-- Claim C3 (counterexample): the claim says `parseValue` on the quoted
input `"true"` returns boolean `true`; in fact the quotes make the
case-insensitive boolean comparison fail, and the value comes out of rule 4
as the *string* `true` (quotes stripped only at the very end). -/
theorem parseValue_quotedTrue_counterexample :
    parseValue ("\"true\"".data) = .str ("true".data) ∧
    parseValue ("\"true\"".data) ≠ .bool true := by
  refine ⟨rfl, ?_⟩
  intro hc
  rw [show parseValue ("\"true\"".data) = .str ("true".data) from rfl] at hc
  exact JVal.noConfusion hc

/-- Claim C3 (amended): because quote stripping happens only after all type
checks, a quoted `"true"` never reaches the boolean test unquoted and is
returned as the string `true` with the quotes stripped (an unquoted `true`
is still boolean, and a quoted `"3"` is likewise the string `3`). -/
theorem parseValue_quoteStripping_after_checks :
    parseValue ("\"true\"".data) = .str ("true".data) ∧
    parseValue ("true".data) = .bool true ∧
    parseValue ("\"3\"".data) = .str ("3".data) :=
  ⟨rfl, rfl, rfl⟩

/-- Claim C6: the fixed inference priority on the spec's examples — `true`
and `TRUE` are boolean `true`, `42` is the number 42, `3.14` the number
3.14, `1,2,3` the list of numbers `[1,2,3]`, `a,b` the list of the two
strings `a` and `b`, and the quoted `"hello"` the string `hello` with the
quotes stripped. -/
theorem parseValue_inference_priority :
    parseValue ("true".data) = .bool true ∧
    parseValue ("TRUE".data) = .bool true ∧
    parseValue ("42".data) = .num (.fin (mkRat 42 1)) ∧
    parseValue ("3.14".data) = .num (.fin (mkRat 157 50)) ∧
    parseValue ("1,2,3".data) =
      .arr [.num (.fin (mkRat 1 1)), .num (.fin (mkRat 2 1)), .num (.fin (mkRat 3 1))] [] ∧
    parseValue ("a,b".data) = .arr [.str ("a".data), .str ("b".data)] [] ∧
    parseValue ("\"hello\"".data) = .str ("hello".data) ∧
    mkRat 157 50 = (314 : ℚ) / 100 :=
  ⟨rfl, rfl, rfl, rfl, rfl, rfl, rfl, by norm_num [mkRat, Rat.normalize]⟩

/-- Claim C7 (counterexample): the claim says an intermediate non-mapping
leaf is always overwritten with a new mapping so the assignment succeeds;
but `current[key] = current[key] || {}` keeps a *truthy* leaf (here
`{a: true}` on path `a.b`), and the next property assignment on the
primitive then throws a strict-mode `TypeError`. -/
theorem setNestedValue_truthyLeaf_counterexample :
    isErrE (setNestedValue (.obj [(("a".data), .bool true)])
      [("a".data), ("b".data)] (.bool false)) = true :=
  rfl

/-- Claim C7 (amended): only a *falsy* intermediate leaf (`false`, `0`, the
empty string) is overwritten with a new mapping, after which the assignment
succeeds; a truthy non-object leaf (`true`, a non-zero number, a non-empty
string) is kept, and the subsequent property assignment on the primitive
throws a strict-mode `TypeError` instead of succeeding. -/
theorem setNestedValue_falsy_overwrite_truthy_throws :
    setNestedValue (.obj [(("a".data), .bool false)]) [("a".data), ("b".data)]
        (.num (.fin (mkRat 1 1))) =
      .ok (.obj [(("a".data), .obj [(("b".data), .num (.fin (mkRat 1 1)))])]) ∧
    setNestedValue (.obj [(("a".data), .num (.fin (mkRat 0 1)))]) [("a".data), ("b".data)]
        (.bool true) =
      .ok (.obj [(("a".data), .obj [(("b".data), .bool true)])]) ∧
    setNestedValue (.obj [(("a".data), .str [])]) [("a".data), ("b".data)] (.bool true) =
      .ok (.obj [(("a".data), .obj [(("b".data), .bool true)])]) ∧
    isErrE (setNestedValue (.obj [(("a".data), .bool true)]) [("a".data), ("b".data)]
      (.bool false)) = true ∧
    isErrE (setNestedValue (.obj [(("a".data), .num (.fin (mkRat 7 1)))])
      [("a".data), ("b".data)] (.bool false)) = true ∧
    isErrE (setNestedValue (.obj [(("a".data), .str ("x".data))]) [("a".data), ("b".data)]
      (.bool false)) = true :=
  ⟨rfl, rfl, rfl, rfl, rfl, rfl⟩

/-- Claim C8: the two-line input `[github.commits]` + `postToBluesky=false`
builds the same structural object `{github:{commits:{postToBluesky:false}}}`
as the single dotted line `github.commits.postToBluesky=false`, and the two
inputs validate to the same configuration. -/
theorem sectionHeader_equals_dottedKey :
    Except.map LexState.configObj
        (processLines initState [("[github.commits]".data), ("postToBluesky=false".data)]) =
      .ok (.obj [(("github".data),
        .obj [(("commits".data), .obj [(("postToBluesky".data), .bool false)])])]) ∧
    Except.map LexState.configObj
        (processLines initState [("github.commits.postToBluesky=false".data)]) =
      .ok (.obj [(("github".data),
        .obj [(("commits".data), .obj [(("postToBluesky".data), .bool false)])])]) ∧
    parseContent ("[github.commits]\npostToBluesky=false".data) =
      parseContent ("github.commits.postToBluesky=false".data) :=
  ⟨rfl, rfl, rfl⟩

/-- Claim C9 (counterexample): the claim says whitespace around the key is
stripped, so `stats.enable = false` should assign `false` at exactly
`stats.enable`; in fact the key keeps its trailing space, the assignment
lands on the segment `enable␠`, and the validated configuration still has
`stats.enable = true`. -/
theorem keyWhitespace_counterexample :
    Except.map LexState.configObj (processLines initState [("stats.enable = false".data)]) =
      .ok (.obj [(("stats".data), .obj [(("enable ".data), .bool false)])]) ∧
    parseContent ("stats.enable = false".data) = .ok ⟨⟨⟨true⟩⟩, ⟨true⟩⟩ ∧
    (⟨⟨⟨true⟩⟩, ⟨true⟩⟩ : RemConfig).stats.enable ≠ false :=
  ⟨rfl, rfl, by decide⟩

/-- Claim C9 (amended): only the whole line and the value are trimmed — the
key is not trimmed separately, so whitespace adjacent to `=` stays in the
key segments: `stats.enable = false` is split into key `stats.enable␠` and
value `␠false`, stores `false` under the segment `enable␠` (which schema
validation strips), leaving `stats.enable` at its default `true`; the
space-free spelling assigns as intended. -/
theorem keyWhitespace_behavior :
    kvMatch ("stats.enable = false".data) =
      some (("stats.enable ".data), (" false".data)) ∧
    parseValue (" false".data) = .bool false ∧
    parseContent ("stats.enable = false".data) = .ok ⟨⟨⟨true⟩⟩, ⟨true⟩⟩ ∧
    parseContent ("stats.enable=false".data) = .ok ⟨⟨⟨true⟩⟩, ⟨false⟩⟩ :=
  ⟨rfl, rfl, rfl, rfl⟩

/-- Claim C2 (counterexample): under the claimed partial-fallback policy the
input `github.commits.postToBluesky=false` + `stats.enable=banana` would
keep `postToBluesky = false` and only degrade `stats.enable` to `true`; in
fact validation of the whole configuration fails (`parseContent` throws) and
the resolver returns the full default, with `postToBluesky = true`. -/
theorem partialFallback_counterexample :
    isErrE (parseContent
      ("github.commits.postToBluesky=false\nstats.enable=banana".data)) = true ∧
    createConfig
        (fun _ _ => .ok ("github.commits.postToBluesky=false\nstats.enable=banana".data))
        ("owner/repo".data) ("rem.conf".data) = defaultConfig ∧
    defaultConfig.github.commits.postToBluesky = true :=
  ⟨rfl, rfl, rfl⟩

/-- Claim C2 (amended): schema validation is strict, not partial-fallback —
a single wrong-typed declared leaf (`stats.enable=banana`) fails validation
of the whole configuration, `parseContent` raises `Invalid configuration`,
and `createConfig` discards every parsed value and falls back to the
complete default; the per-field defaults fill only *absent* leaves (a
well-typed field elsewhere in the same file still parses when no field is
wrong-typed). -/
theorem strictValidation_whole_fallback :
    isErrE (parseContent
      ("github.commits.postToBluesky=false\nstats.enable=banana".data)) = true ∧
    createConfig
        (fun _ _ => .ok ("github.commits.postToBluesky=false\nstats.enable=banana".data))
        ("owner/repo".data) ("rem.conf".data) = defaultConfig ∧
    parseContent ("stats.enable=false".data) = .ok ⟨⟨⟨true⟩⟩, ⟨false⟩⟩ ∧
    schemaParse (.obj [(("github".data), .obj [(("commits".data), .obj [])]),
        (("stats".data), .obj [])]) = .ok defaultConfig :=
  ⟨rfl, rfl, rfl, rfl⟩

/-- Claim C1: for every fetch capability (hence every raw input text and
fetch outcome) and every repository identifier, `createConfig` returns a
configuration with both declared fields present and boolean — every failure
inside the pipeline (lexing `TypeError`s, merge `TypeError`s, validation
errors, fetch errors, bad repository format) is caught, and the result is
either the default configuration or a successfully validated one. -/
theorem createConfig_total_wellTyped (fetch : Str → Str → Except String Str)
    (repository filePath : Str) :
    (∃ b1 b2 : Bool, createConfig fetch repository filePath = ⟨⟨⟨b1⟩⟩, ⟨b2⟩⟩) ∧
    (createConfig fetch repository filePath = defaultConfig ∨
      ∃ content : Str, parseContent content = .ok (createConfig fetch repository filePath)) := by
  constructor
  · exact ⟨(createConfig fetch repository filePath).github.commits.postToBluesky,
      (createConfig fetch repository filePath).stats.enable, rfl⟩
  · simp only [createConfig, parseFile]
    split
    · exact Or.inl rfl
    · split
      · exact Or.inl rfl
      · rename_i content heqf
        split
        · rename_i cfg heqp
          exact Or.inr ⟨content, heqp⟩
        · exact Or.inl rfl

/-- Claim C4: if the repository identifier does not split into a non-empty
owner and repo around `/`, or the external fetch fails for any reason,
`createConfig` returns exactly the default configuration
(`postToBluesky = true`, `enable = true`) and propagates no error. -/
theorem createConfig_failure_fallback (fetch : Str → Str → Except String Str)
    (repository filePath : Str)
    (h : ((splitOnChar '/' repository).get? 0).getD [] = [] ∨
         ((splitOnChar '/' repository).get? 1).getD [] = [] ∨
         ∀ p f, isErrE (fetch p f) = true) :
    createConfig fetch repository filePath = defaultConfig ∧
    defaultConfig.github.commits.postToBluesky = true ∧
    defaultConfig.stats.enable = true := by
  refine ⟨?_, rfl, rfl⟩
  simp only [createConfig, parseFile]
  rcases h with h | h | h
  · rw [if_pos (Or.inl h)]
  · rw [if_pos (Or.inr h)]
  · split
    · rfl
    · split
      · rfl
      · rename_i content heqf
        have hko := h (((splitOnChar '/' repository).get? 0).getD [] ++
          '/' :: ((splitOnChar '/' repository).get? 1).getD []) filePath
        rw [heqf] at hko
        simp [isErrE] at hko

/-- Witness for C4: a repository string with no slash, and separately a
fetch that always fails, both yield the default configuration. -/
theorem createConfig_failure_fallback_witness :
    (createConfig (fun _ _ => .ok ("stats.enable=false".data)) ("justaname".data)
        ("rem.conf".data) = defaultConfig ∧
      defaultConfig.github.commits.postToBluesky = true ∧
      defaultConfig.stats.enable = true) ∧
    (createConfig (fun _ _ => .error ("network failure")) ("owner/repo".data)
        ("rem.conf".data) = defaultConfig ∧
      defaultConfig.github.commits.postToBluesky = true ∧
      defaultConfig.stats.enable = true) :=
  ⟨createConfig_failure_fallback _ _ _ (Or.inr (Or.inl (by decide))),
   createConfig_failure_fallback _ _ _ (Or.inr (Or.inr (fun _ _ => rfl)))⟩

theorem lookupH_cons_ne {a b : Addr} (o : HObj) (h : Heap) (hne : a ≠ b) :
    lookupH ((b, o) :: h) a = lookupH h a := by
  simp [lookupH, hne]

theorem lookupH_writeH_ne {a b : Addr} (o2 : HObj) (hne : a ≠ b) :
    ∀ h : Heap, lookupH (writeH h b o2) a = lookupH h a := by
  intro h
  induction h with
  | nil => rfl
  | cons p t ih =>
    obtain ⟨c, oc⟩ := p
    by_cases hcb : c = b
    · subst hcb
      simp [writeH, lookupH, hne, ih]
    · simp only [writeH, if_neg hcb, lookupH, ih]

theorem lookupH_writeProp_ne {a b : Addr} (k : Str) (v : HVal) (h : Heap) (hne : a ≠ b) :
    lookupH (writeProp h b k v) a = lookupH h a := by
  unfold writeProp
  split
  · exact lookupH_writeH_ne _ hne h
  · exact lookupH_writeH_ne _ hne h
  · rfl

theorem lookupH_le_maxAddr {a : Addr} {o : HObj} :
    ∀ {h : Heap}, lookupH h a = some o → a ≤ maxAddr h := by
  intro h
  induction h with
  | nil => intro hl; exact absurd hl (by simp [lookupH])
  | cons p t ih =>
    obtain ⟨b, ob⟩ := p
    intro hl
    by_cases hab : a = b
    · subst hab
      exact le_max_of_le_left (le_refl a)
    · rw [lookupH, if_neg hab] at hl
      exact le_max_of_le_right (ih hl)

theorem lookupH_ne_freshA {a : Addr} {o : HObj} {h : Heap}
    (hl : lookupH h a = some o) : a ≠ freshA h := by
  have hle : a ≤ maxAddr h := lookupH_le_maxAddr hl
  intro hcontra
  rw [freshA] at hcontra
  rw [hcontra] at hle
  exact Nat.not_succ_le_self _ hle

/-- The output-building loop of the heap-level merge writes only to the
freshly allocated output address, so (given that the recursive merge it is
handed also preserves allocations) every previously allocated object is
untouched. -/
theorem mergePropsGo_preserves (dm : Heap → HVal → HVal → Heap × Option HVal)
    (hdm : ∀ h t s a o, lookupH h a = some o → lookupH (dm h t s).1 a = some o)
    (aout : Addr) (t : HVal) :
    ∀ (props : List (Str × HVal)) (h : Heap) (a : Addr) (o : HObj),
      a ≠ aout → lookupH h a = some o →
      lookupH (mergePropsGo dm aout t h props).1 a = some o := by
  intro props
  induction props with
  | nil => intro h a o _ hl; exact hl
  | cons p rest ih =>
    obtain ⟨k, sv⟩ := p
    intro h a o hne hl
    have hwr : lookupH (writeProp h aout k sv) a = some o := by
      rw [lookupH_writeProp_ne _ _ _ hne]; exact hl
    cases sv with
    | ref r =>
      cases hin : jsInOpH h t k with
      | error e => simp only [mergePropsGo, hin]; exact hl
      | ok tv? =>
        cases tv? with
        | none => simp only [mergePropsGo, hin]; exact ih _ _ _ hne hwr
        | some tv =>
          cases hr : (dm h tv (HVal.ref r)).2 with
          | none =>
            simp only [mergePropsGo, hin, hr]
            exact hdm _ _ _ _ _ hl
          | some mv =>
            simp only [mergePropsGo, hin, hr]
            refine ih _ _ _ hne ?_
            rw [lookupH_writeProp_ne _ _ _ hne]
            exact hdm _ _ _ _ _ hl
    | bool b => exact ih _ _ _ hne hwr
    | num n => exact ih _ _ _ hne hwr
    | str s => exact ih _ _ _ hne hwr

/-- The heap-level `deepMerge` only allocates: every object allocated before
the call still holds exactly its old contents afterwards — in particular
neither the target nor the source object graph (nor the shared default
configuration) is mutated. -/
theorem deepMergeH_preserves :
    ∀ (fuel : Nat) (h : Heap) (t s : HVal) (a : Addr) (o : HObj),
      lookupH h a = some o → lookupH (deepMergeH fuel h t s).1 a = some o := by
  intro fuel
  induction fuel with
  | zero => intro h t s a o hl; exact hl
  | succ f ih =>
    intro h t s a o hl
    have hane : a ≠ freshA h := lookupH_ne_freshA hl
    rw [deepMergeH]
    refine mergePropsGo_preserves (deepMergeH f) (fun h2 t2 s2 a2 o2 hl2 => ih h2 t2 s2 a2 o2 hl2)
      (freshA h) t (ownPropsH h s) _ a o hane ?_
    rw [lookupH_cons_ne _ _ hane]
    exact hl

/-- Claim C5: `deepMerge` mutates neither of its inputs, and the shared
default configuration is unchanged by any number of merges — on the
heap-level rendering, every object allocated before a merge (in particular
the default configuration's object graph, and both arguments) still holds
exactly its old contents after the merge, and still does after a second
merge against a different parsed object. -/
theorem deepMerge_no_mutation (fuel fuel2 : Nat) (h : Heap) (t s t2 s2 : HVal)
    (a : Addr) (o : HObj) (hl : lookupH h a = some o) :
    lookupH (deepMergeH fuel h t s).1 a = some o ∧
    lookupH (deepMergeH fuel2 (deepMergeH fuel h t s).1 t2 s2).1 a = some o :=
  ⟨deepMergeH_preserves fuel h t s a o hl,
   deepMergeH_preserves fuel2 _ t2 s2 a o (deepMergeH_preserves fuel h t s a o hl)⟩

/-- Witness for C5: on a concrete heap holding the default configuration
(addresses 0–3), merging it with `{stats:{enable:false}}` and then with `{}`
leaves the default's `stats` object (address 2) — and similarly its root —
bitwise unchanged in between and afterwards. -/
theorem deepMerge_no_mutation_witness :
    lookupH mutationHeap 2 = some (.obj [(("enable".data), .bool true)]) ∧
    lookupH (deepMergeH 5 mutationHeap (.ref 0) (.ref 4)).1 2 =
      some (.obj [(("enable".data), .bool true)]) ∧
    lookupH (deepMergeH 5 (deepMergeH 5 mutationHeap (.ref 0) (.ref 4)).1
        (.ref 0) (.ref 6)).1 2 =
      some (.obj [(("enable".data), .bool true)]) := by
  refine ⟨rfl, ?_, ?_⟩
  · exact (deepMerge_no_mutation 5 5 mutationHeap (.ref 0) (.ref 4) (.ref 0) (.ref 6)
      2 (.obj [(("enable".data), .bool true)]) rfl).1
  · exact (deepMerge_no_mutation 5 5 mutationHeap (.ref 0) (.ref 4) (.ref 0) (.ref 6)
      2 (.obj [(("enable".data), .bool true)]) rfl).2

theorem findSep_no_eq {v : Str} (hv : '=' ∉ v) : ∀ acc : Str, findSep acc v = none := by
  induction v with
  | nil => intro acc; rfl
  | cons c rest ih =>
    intro acc
    have hc : ¬ c = '=' := by
      intro hcontra
      exact hv (hcontra ▸ List.mem_cons_self c rest)
    have hrest : '=' ∉ rest := fun hmem => hv (List.mem_cons_of_mem c hmem)
    rw [findSep]
    rw [if_neg (by intro hand; exact hc hand.1)]
    exact ih hrest (acc ++ [c])

theorem findSep_trailing_eq {k : Str} (hk : '=' ∉ k) :
    ∀ acc : Str, findSep acc (k ++ ['=']) = none := by
  induction k with
  | nil =>
    intro acc
    rw [List.nil_append, findSep]
    rw [if_neg (by intro hand; exact hand.2.2 rfl)]
    rfl
  | cons c rest ih =>
    intro acc
    have hc : ¬ c = '=' := by
      intro hcontra
      exact hk (hcontra ▸ List.mem_cons_self c rest)
    have hrest : '=' ∉ rest := fun hmem => hk (List.mem_cons_of_mem c hmem)
    rw [List.cons_append, findSep]
    rw [if_neg (by intro hand; exact hc hand.1)]
    exact ih hrest (acc ++ [c])

/-- A trimmed line of the shape `key=` (no other `=` in the key, not a
comment) matches none of the line rules, so the loop state is untouched. -/
theorem processLine_trailing_eq (st : LexState) (line k : Str)
    (h1 : jsTrim line = k ++ ['=']) (h2 : '=' ∉ k) (h3 : k.head? ≠ some '#') :
    processLine st line = .ok st := by
  have hne : ¬ (k ++ ['='] = []) := by simp
  have hhead : ¬ (k ++ ['=']).head? = some '#' := by
    cases k with
    | nil => decide
    | cons c rest =>
      simp only [List.cons_append, List.head?]
      simp only [List.head?] at h3
      exact h3
  have hnots : ¬ ((k ++ ['=']).head? = some '[' ∧ (k ++ ['=']).getLast? = some ']' ∧
      3 ≤ (k ++ ['=']).length) := by
    intro hand
    have h5 := hand.2.1
    rw [List.getLast?_concat] at h5
    exact absurd h5 (by decide)
  have hsec : sectionMatch (k ++ ['=']) = none := by rw [sectionMatch, if_neg hnots]
  have hkv : kvMatch (k ++ ['=']) = none := findSep_trailing_eq h2 []
  have hcond : ¬ (k ++ ['='] = [] ∨ (k ++ ['=']).head? = some '#') := by
    intro hor
    rcases hor with hor | hor
    · exact hne hor
    · exact hhead hor
  rw [processLine, h1, if_neg hcond]
  simp only [hsec, hkv]

/-- A trimmed line of the shape `=value` (no other `=` in the value) matches
none of the line rules, so the loop state is untouched. -/
theorem processLine_leading_eq (st : LexState) (line v : Str)
    (h1 : jsTrim line = '=' :: v) (h2 : '=' ∉ v) :
    processLine st line = .ok st := by
  have hnots : ¬ (('=' :: v).head? = some '[' ∧ ('=' :: v).getLast? = some ']' ∧
      3 ≤ ('=' :: v).length) := by
    intro hand
    have h5 := hand.1
    simp only [List.head?] at h5
    exact absurd h5 (by decide)
  have hsec : sectionMatch ('=' :: v) = none := by rw [sectionMatch, if_neg hnots]
  have hkv : kvMatch ('=' :: v) = none := by
    rw [kvMatch, findSep]
    rw [if_neg (by intro hand; exact hand.2.1 rfl)]
    exact findSep_no_eq h2 _
  have hcond : ¬ ('=' :: v = [] ∨ ('=' :: v).head? = some '#') := by
    intro hor
    rcases hor with hor | hor
    · exact List.noConfusion hor
    · simp only [List.head?] at hor
      exact absurd hor (by decide)
  rw [processLine, h1, if_neg hcond]
  simp only [hsec, hkv]

/-- Removing a state-preserving line from the line list does not change the
outcome of the loop. -/
theorem processLines_skip (l : Str) (hstep : ∀ st, processLine st l = .ok st)
    (pre post : List Str) :
    ∀ st : LexState, processLines st (pre ++ l :: post) = processLines st (pre ++ post) := by
  induction pre with
  | nil =>
    intro st
    rw [List.nil_append, List.nil_append, processLines, hstep st]
  | cons p rest ih =>
    intro st
    rw [List.cons_append, List.cons_append, processLines, processLines]
    cases hp : processLine st p with
    | ok st2 => exact ih st2
    | error e => rfl

/-- Claim C10: a trimmed line of the form `key=` with nothing after the `=`
(or `=value` with nothing before it) matches no rule of `parseContent`'s
loop and is silently ignored — no pair is emitted, the state (including the
current section) is untouched, and the line list with the line removed
yields the same outcome, so an empty-string value cannot be expressed in the
dialect. -/
theorem emptyValue_line_ignored (k v line1 line2 : Str) (pre post : List Str)
    (st : LexState)
    (h1 : jsTrim line1 = k ++ ['=']) (h2 : '=' ∉ k) (h3 : k.head? ≠ some '#')
    (h4 : jsTrim line2 = '=' :: v) (h5 : '=' ∉ v) :
    processLine st line1 = .ok st ∧
    processLine st line2 = .ok st ∧
    processLines st (pre ++ line1 :: post) = processLines st (pre ++ post) ∧
    processLines st (pre ++ line2 :: post) = processLines st (pre ++ post) :=
  ⟨processLine_trailing_eq st line1 k h1 h2 h3,
   processLine_leading_eq st line2 v h4 h5,
   processLines_skip line1 (fun s => processLine_trailing_eq s line1 k h1 h2 h3) pre post st,
   processLines_skip line2 (fun s => processLine_leading_eq s line2 v h4 h5) pre post st⟩

/-- Witness for C10: the concrete lines `key=` and `=value`, inserted after
`stats.enable=false`, are ignored and do not change the loop's outcome. -/
theorem emptyValue_line_ignored_witness :
    processLine initState ("key=".data) = .ok initState ∧
    processLine initState ("=value".data) = .ok initState ∧
    processLines initState [("stats.enable=false".data), ("key=".data)] =
      processLines initState [("stats.enable=false".data)] ∧
    processLines initState [("stats.enable=false".data), ("=value".data)] =
      processLines initState [("stats.enable=false".data)] := by
  have happ1 : [("stats.enable=false".data), ("key=".data)] =
      [("stats.enable=false".data)] ++ ("key=".data) :: [] := rfl
  have happ2 : [("stats.enable=false".data), ("=value".data)] =
      [("stats.enable=false".data)] ++ ("=value".data) :: [] := rfl
  have happ3 : [("stats.enable=false".data)] =
      [("stats.enable=false".data)] ++ ([] : List Str) := rfl
  have hmain := emptyValue_line_ignored ("key".data) ("value".data)
    ("key=".data) ("=value".data) [("stats.enable=false".data)] [] initState
    (by decide) (by decide) (by decide) (by decide) (by decide)
  refine ⟨hmain.1, hmain.2.1, ?_, ?_⟩
  · rw [happ1, happ3]
    exact hmain.2.2.1
  · rw [happ2, happ3]
    exact hmain.2.2.2

